import Mathlib

/-!
# Verification of the sdp-rs attribute and connection parsers

A shallow embedding, in Lean 4, of the parsing and formatting core of the
`sdp` crate (files `src/connection.rs`, `src/attributes/mod.rs`,
`src/attributes/fmtp.rs`, `src/attributes/kind.rs`,
`src/attributes/extension.rs`), together with theorems settling the frozen
claims about it.

Strings are modelled through their character lists.  Rust's borrowed string
slices become Lean `String`s; `anyhow::Error` becomes a `String` error
payload carried by `Except String`.  The network-address type `std::net::IpAddr`
is external to the crate: the connection-layer definitions are parameterised
by an abstract address type together with its parse and display functions,
and a concrete IPv4 model instantiates them for concrete evaluations.
-/

/-! ## Character-level splitting, mirroring Rust's `str::split` family -/

/-- Rust `s.split(sep)` viewed at the first separator only: the characters
before the first occurrence of `sep`, and (when `sep` occurs) the characters
after it. -/
def breakAtFirst (sep : Char) : List Char → List Char × Option (List Char)
  | [] => ([], none)
  | c :: cs =>
    if c = sep then ([], some cs)
    else
      let r := breakAtFirst sep cs
      (c :: r.1, r.2)

/-- Rust `s.split(sep).collect::<Vec<_>>()`: the full list of
separator-delimited fields (`"".split(sep)` yields one empty field). -/
def splitAll (sep : Char) : List Char → List (List Char)
  | [] => [[]]
  | c :: cs =>
    if c = sep then [] :: splitAll sep cs
    else
      match splitAll sep cs with
      | [] => [[c]]
      | h :: t => (c :: h) :: t

/-- Rust `s.splitn(2, sep).collect::<Vec<_>>()`: at most two fields, the
second being everything after the first separator. -/
def rustSplitn2 (sep : Char) (s : String) : List String :=
  match breakAtFirst sep s.data with
  | (p, none) => [String.mk p]
  | (p, some r) => [String.mk p, String.mk r]

/-! ## Decimal numerals, mirroring Rust's `Display` and `FromStr` for
unsigned integers -/

/-- The ASCII digit character for a value below ten. -/
def digitChar (d : Nat) : Char := Char.ofNat (48 + d)

/-- Digit characters of `n` in base ten, most significant first; the fuel
argument only forces structural termination and is immaterial once it
exceeds `n`. -/
def natDigitsAux : Nat → Nat → List Char
  | 0, _ => []
  | fuel + 1, n =>
    if n < 10 then [digitChar n]
    else natDigitsAux fuel (n / 10) ++ [digitChar (n % 10)]

/-- Rust `format!("{}", n)` for an unsigned integer `n`. -/
def natToStr (n : Nat) : String := String.mk (natDigitsAux (n + 1) n)

/-- Numeric value of a digit-character list, most significant first. -/
def parseDigits (l : List Char) : Nat :=
  l.foldl (fun a c => a * 10 + (c.toNat - 48)) 0

/-- Rust `s.parse::<uN>()` for an `N`-bit unsigned integer: an optional
leading `+`, then one or more ASCII digits, value below `2 ^ w`. -/
def parseNatW (w : Nat) (s : String) : Except String Nat :=
  match s.data with
  | [] => Except.error "cannot parse integer from empty string"
  | l =>
    let digits := if l.head? = some '+' then l.tail else l
    if digits = [] then Except.error "invalid digit found in string"
    else if digits.all Char.isDigit then
      if parseDigits digits < 2 ^ w then Except.ok (parseDigits digits)
      else Except.error "number too large to fit in target type"
    else Except.error "invalid digit found in string"

/-! ## The fixed-arity split utility

Modelled from the spec: the crate's `util::tuple2_from_split` and
`util::tuple3_from_split` helpers (module `src/util.rs`, not part of the
provided sources) split a string into exactly 2, respectively 3, parts on a
separator, failing with the given message when the separator occurs too few
times; the first parts are delimited by the first occurrence found scanning
left to right, recursing into the remainder. -/

/-- Modelled from the spec: split into exactly two parts at the first
occurrence of `sep`, or fail with `msg`. -/
def tuple2_from_split (s : String) (sep : Char) (msg : String) :
    Except String (String × String) :=
  match breakAtFirst sep s.data with
  | (_, none) => Except.error msg
  | (p, some r) => Except.ok (String.mk p, String.mk r)

/-- Modelled from the spec: split into exactly three parts at the first two
occurrences of `sep`, or fail with `msg`. -/
def tuple3_from_split (s : String) (sep : Char) (msg : String) :
    Except String (String × String × String) :=
  match breakAtFirst sep s.data with
  | (_, none) => Except.error msg
  | (p1, some r) =>
    match breakAtFirst sep r with
    | (_, none) => Except.error msg
    | (p2, some r2) => Except.ok (String.mk p1, String.mk p2, String.mk r2)

/-! ## Basic lemmas about splitting -/

theorem breakAtFirst_not_mem {sep : Char} {l : List Char} (h : sep ∉ l) :
    breakAtFirst sep l = (l, none) := by
  induction l with
  | nil => rfl
  | cons c cs ih =>
    simp only [List.mem_cons, not_or] at h
    simp [breakAtFirst, Ne.symm h.1, ih h.2]

theorem breakAtFirst_append {sep : Char} {pre : List Char} (rest : List Char)
    (h : sep ∉ pre) : breakAtFirst sep (pre ++ sep :: rest) = (pre, some rest) := by
  induction pre with
  | nil => simp [breakAtFirst]
  | cons c cs ih =>
    simp only [List.mem_cons, not_or] at h
    simp [breakAtFirst, Ne.symm h.1, ih h.2]

theorem breakAtFirst_eq_some {sep : Char} {l pre rest : List Char}
    (h : breakAtFirst sep l = (pre, some rest)) :
    l = pre ++ sep :: rest ∧ sep ∉ pre := by
  induction l generalizing pre with
  | nil => simp [breakAtFirst] at h
  | cons c cs ih =>
    by_cases hc : c = sep
    · subst hc
      rw [breakAtFirst, if_pos rfl] at h
      injection h with h1 h2
      injection h2 with h2
      subst h1
      subst h2
      simp
    · cases hb : breakAtFirst sep cs with
      | mk p r =>
        rw [breakAtFirst, if_neg hc] at h
        simp only [hb] at h
        injection h with h1 h2
        subst h2
        obtain ⟨h3, h4⟩ := ih hb
        subst h3
        subst h1
        simp [h4, Ne.symm hc]

theorem breakAtFirst_eq_none {sep : Char} {l pre : List Char}
    (h : breakAtFirst sep l = (pre, none)) : l = pre ∧ sep ∉ l := by
  induction l generalizing pre with
  | nil =>
    rw [breakAtFirst] at h
    injection h with h1 h2
    subst h1
    simp
  | cons c cs ih =>
    by_cases hc : c = sep
    · subst hc
      rw [breakAtFirst, if_pos rfl] at h
      injection h with h1 h2
      exact absurd h2 (by simp)
    · cases hb : breakAtFirst sep cs with
      | mk p r =>
        rw [breakAtFirst, if_neg hc] at h
        simp only [hb] at h
        injection h with h1 h2
        subst h2
        obtain ⟨h3, h4⟩ := ih hb
        subst h3
        subst h1
        simp [h4, Ne.symm hc]

theorem splitAll_ne_nil (sep : Char) (l : List Char) : splitAll sep l ≠ [] := by
  cases l with
  | nil => simp [splitAll]
  | cons c cs =>
    by_cases hc : c = sep
    · simp [splitAll, hc]
    · simp only [splitAll, hc, if_false]
      cases splitAll sep cs <;> simp

theorem splitAll_not_mem {sep : Char} {l : List Char} (h : sep ∉ l) :
    splitAll sep l = [l] := by
  induction l with
  | nil => rfl
  | cons c cs ih =>
    simp only [List.mem_cons, not_or] at h
    simp [splitAll, Ne.symm h.1, ih h.2]

theorem splitAll_append {sep : Char} {pre : List Char} (rest : List Char)
    (h : sep ∉ pre) :
    splitAll sep (pre ++ sep :: rest) = pre :: splitAll sep rest := by
  induction pre with
  | nil => simp [splitAll]
  | cons c cs ih =>
    simp only [List.mem_cons, not_or] at h
    have hrec := ih h.2
    show splitAll sep (c :: (cs ++ sep :: rest)) = (c :: cs) :: splitAll sep rest
    simp only [splitAll, Ne.symm h.1, if_false]
    rw [hrec]

theorem splitAll_eq_break (sep : Char) (l : List Char) :
    splitAll sep l =
      match breakAtFirst sep l with
      | (p, none) => [p]
      | (p, some r) => p :: splitAll sep r := by
  induction l with
  | nil => rfl
  | cons c cs ih =>
    by_cases hc : c = sep
    · subst hc
      simp [splitAll, breakAtFirst]
    · simp only [splitAll, breakAtFirst, hc, if_false]
      rw [ih]
      cases h : breakAtFirst sep cs with
      | mk p r =>
        cases r <;> simp

/-! ## Lemmas about decimal numerals -/

theorem digitChar_toNat {d : Nat} (h : d < 10) : (digitChar d).toNat = 48 + d := by
  interval_cases d <;> rfl

theorem digitChar_isDigit {d : Nat} (h : d < 10) : (digitChar d).isDigit = true := by
  interval_cases d <;> rfl

theorem parseDigits_append (xs : List Char) (c : Char) :
    parseDigits (xs ++ [c]) = parseDigits xs * 10 + (c.toNat - 48) := by
  simp [parseDigits, List.foldl_append]

theorem natDigitsAux_spec :
    ∀ fuel n, n < fuel →
      parseDigits (natDigitsAux fuel n) = n ∧ natDigitsAux fuel n ≠ [] ∧
        ∀ c ∈ natDigitsAux fuel n, c.isDigit = true := by
  intro fuel
  induction fuel with
  | zero => intro n h; omega
  | succ f ih =>
    intro n h
    by_cases h10 : n < 10
    · refine ⟨?_, ?_, ?_⟩
      · simp [natDigitsAux, h10, parseDigits, digitChar_toNat h10]
      · simp [natDigitsAux, h10]
      · simp [natDigitsAux, h10, digitChar_isDigit h10]
    · have hlt : n / 10 < f := by omega
      obtain ⟨ih1, ih2, ih3⟩ := ih (n / 10) hlt
      refine ⟨?_, ?_, ?_⟩
      · rw [natDigitsAux, if_neg h10, parseDigits_append, ih1,
          digitChar_toNat (Nat.mod_lt n (by omega))]
        omega
      · rw [natDigitsAux, if_neg h10]
        simp
      · rw [natDigitsAux, if_neg h10]
        intro c hc
        rcases List.mem_append.mp hc with hc | hc
        · exact ih3 c hc
        · rcases List.mem_singleton.mp hc with rfl
          exact digitChar_isDigit (Nat.mod_lt n (by omega))

theorem natToStr_parseDigits (n : Nat) : parseDigits (natToStr n).data = n :=
  (natDigitsAux_spec (n + 1) n (Nat.lt_succ_self n)).1

theorem natToStr_ne_nil (n : Nat) : (natToStr n).data ≠ [] :=
  (natDigitsAux_spec (n + 1) n (Nat.lt_succ_self n)).2.1

theorem natToStr_all_digits (n : Nat) : ∀ c ∈ (natToStr n).data, c.isDigit = true :=
  (natDigitsAux_spec (n + 1) n (Nat.lt_succ_self n)).2.2

theorem not_mem_natToStr {c : Char} (n : Nat) (h : c.isDigit = false) :
    c ∉ (natToStr n).data := by
  intro hmem
  have := natToStr_all_digits n c hmem
  rw [this] at h
  exact Bool.noConfusion h

theorem natDigitsAux_head_ne_zero :
    ∀ fuel n, n < fuel → 0 < n → (natDigitsAux fuel n).head? ≠ some '0' := by
  intro fuel
  induction fuel with
  | zero => intro n h; omega
  | succ f ih =>
    intro n h hpos
    by_cases h10 : n < 10
    · rw [natDigitsAux, if_pos h10]
      intro hc
      have h0 : digitChar n = '0' := by
        simpa using hc
      have : (digitChar n).toNat = 48 := by rw [h0]; rfl
      rw [digitChar_toNat h10] at this
      omega
    · rw [natDigitsAux, if_neg h10]
      have hne := (natDigitsAux_spec f (n / 10) (by omega)).2.1
      rw [List.head?_append_of_ne_nil]
      · exact ih (n / 10) (by omega) (by omega)
      · exact hne

theorem parseNatW_natToStr (w n : Nat) (h : n < 2 ^ w) :
    parseNatW w (natToStr n) = Except.ok n := by
  rcases hd : (natToStr n).data with _ | ⟨c, cs⟩
  · exact absurd hd (natToStr_ne_nil n)
  · have hdig : ∀ x ∈ c :: cs, x.isDigit = true := by
      rw [← hd]; exact natToStr_all_digits n
    have hplus : (c :: cs).head? ≠ some '+' := by
      intro hc
      have hcd := hdig c (List.mem_cons_self c cs)
      simp only [List.head?_cons, Option.some.injEq] at hc
      subst hc
      exact Bool.noConfusion hcd
    have hval : parseDigits (c :: cs) = n := by
      rw [← hd]; exact natToStr_parseDigits n
    simp only [parseNatW, hd]
    rw [if_neg hplus, if_neg (by simp), if_pos (by simpa using hdig),
      if_pos (hval ▸ h), hval]

/-! ## `Kind` (src/attributes/kind.rs) -/

/-- The conference type enumeration from `src/attributes/kind.rs`. -/
inductive Kind where
  | Broadcast
  | Meeting
  | Moderated
  | Test
  | H332
deriving DecidableEq, Repr

/-- The `impl fmt::Display for Kind` from `src/attributes/kind.rs`. -/
def Kind.display : Kind → String
  | .Broadcast => "broadcast"
  | .Meeting => "meeting"
  | .Moderated => "moderated"
  | .Test => "test"
  | .H332 => "H332"

/-- The `impl TryFrom<&str> for Kind` from `src/attributes/kind.rs`. -/
def Kind.tryFrom (value : String) : Except String Kind :=
  if value = "broadcast" then Except.ok .Broadcast
  else if value = "meeting" then Except.ok .Meeting
  else if value = "moderated" then Except.ok .Moderated
  else if value = "test" then Except.ok .Test
  else if value = "H332" then Except.ok .H332
  else Except.error "invalid type!"

/-! ## `ExtMap` (src/attributes/extension.rs) -/

/-- The extension-mapping attribute from `src/attributes/extension.rs`. -/
structure ExtMap where
  key : Nat
  value : String
deriving DecidableEq, Repr

/-- The `impl TryFrom<&str> for ExtMap` from `src/attributes/extension.rs`:
a two-part space split, the first part parsed as `u8`. -/
def ExtMap.tryFrom (s : String) : Except String ExtMap :=
  match tuple2_from_split s ' ' "invalid extmap!" with
  | Except.error e => Except.error e
  | Except.ok (k, v) =>
    match parseNatW 8 k with
    | Except.error e => Except.error e
    | Except.ok key => Except.ok ⟨key, v⟩

/-! ## `Fmtp` (src/attributes/fmtp.rs)

Rust's `HashMap<&str, Option<&str>>` is modelled as an association list whose
`insert` replaces the binding of an existing key in place and otherwise
appends, exactly the map semantics `HashMap::insert` provides (up to the
bucket order, which the claims never observe: they observe lookups and the
key set). -/

/-- Rust `HashMap::insert` on an association list: replace in place when the key
is bound, append otherwise. -/
def insertKV (m : List (String × Option String)) (k : String) (v : Option String) :
    List (String × Option String) :=
  if m.any (fun p => p.1 = k) then
    m.map (fun p => if p.1 = k then (k, v) else p)
  else m ++ [(k, v)]

/-- The format-parameters attribute from `src/attributes/fmtp.rs`. -/
structure Fmtp where
  key : Nat
  values : List (String × Option String)
deriving DecidableEq, Repr

/-- One iteration of the parameter loop in `Fmtp::try_from`: the entry is
split on every `=`; the first field is the parameter name and the second
field, when present, its value (`split('=')` followed by two `next()`
calls). -/
def fmtpStep (m : List (String × Option String)) (e : List Char) :
    List (String × Option String) :=
  match splitAll '=' e with
  | [] => m
  | n :: t => insertKV m (String.mk n) (t.head?.map String.mk)

/-- The `impl TryFrom<&str> for Fmtp` from `src/attributes/fmtp.rs`: a two-part
space split, the first part parsed as `u8`, the second split on `;` into
parameter entries folded into the map.  (The `ok_or` guard on the first
`next()` of the `=`-split never fires, `split` being never empty; `fmtpStep`
keeps the map unchanged in that impossible case.) -/
def Fmtp.tryFrom (s : String) : Except String Fmtp :=
  match tuple2_from_split s ' ' "invalid fmtp!" with
  | Except.error e => Except.error e
  | Except.ok (code, v) =>
    match parseNatW 8 code with
    | Except.error e => Except.error e
    | Except.ok key => Except.ok ⟨key, (splitAll ';' v.data).foldl fmtpStep []⟩

/-! ## Sub-parsers whose modules are not among the provided sources

The crate's `rtp.rs`, `ssrc.rs`, `orient.rs` and `mid.rs` modules are
referenced by `src/attributes/mod.rs` but their sources are not provided;
the following definitions are modelled from the spec. -/

/-- Modelled from the spec: the media-orientation vocabulary
`portrait / landscape / seascape` (case-sensitive), module `orient.rs`
missing from the provided sources. -/
inductive Orient where
  | Portrait
  | Landscape
  | Seascape
deriving DecidableEq, Repr

/-- Modelled from the spec: case-sensitive match of the orientation value
against its three-member fixed vocabulary, failing on anything else. -/
def Orient.tryFrom (s : String) : Except String Orient :=
  if s = "portrait" then Except.ok .Portrait
  else if s = "landscape" then Except.ok .Landscape
  else if s = "seascape" then Except.ok .Seascape
  else Except.error "invalid orient!"

/-- Modelled from the spec: the rtpmap value
`payload-type SP encoding-name "/" clock-rate [ "/" encoding-params ]`,
module `rtp.rs` missing from the provided sources. -/
structure RtpMap where
  payloadType : Nat
  encodingName : String
  clockRate : Nat
  channels : Option Nat
deriving DecidableEq, Repr

/-- Modelled from the spec: a two-part space split, the first part a numeric
payload type, the second split on `/` into the encoding name, the clock rate
and an optional channel count. -/
def RtpMap.tryFrom (s : String) : Except String RtpMap :=
  match tuple2_from_split s ' ' "invalid rtpmap!" with
  | Except.error e => Except.error e
  | Except.ok (pt, rest) =>
    match parseNatW 8 pt with
    | Except.error e => Except.error e
    | Except.ok payloadType =>
      match (splitAll '/' rest.data).map String.mk with
      | [n, r] =>
        match parseNatW 64 r with
        | Except.error e => Except.error e
        | Except.ok rate => Except.ok ⟨payloadType, n, rate, none⟩
      | [n, r, ch] =>
        match parseNatW 64 r with
        | Except.error e => Except.error e
        | Except.ok rate =>
          match parseNatW 64 ch with
          | Except.error e => Except.error e
          | Except.ok chv => Except.ok ⟨payloadType, n, rate, some chv⟩
      | _ => Except.error "invalid rtpmap!"

/-- Modelled from the spec: the ssrc value `<id> <attr>:<value>`, module
`ssrc.rs` missing from the provided sources. -/
structure Ssrc where
  id : Nat
  attr : String
  value : Option String
deriving DecidableEq, Repr

/-- Modelled from the spec: a two-part space split, the first part a numeric
synchronization-source identifier, the second split at its first `:` into an
attribute name and an optional value. -/
def Ssrc.tryFrom (s : String) : Except String Ssrc :=
  match tuple2_from_split s ' ' "invalid ssrc!" with
  | Except.error e => Except.error e
  | Except.ok (i, rest) =>
    match parseNatW 32 i with
    | Except.error e => Except.error e
    | Except.ok idv =>
      match breakAtFirst ':' rest.data with
      | (a, none) => Except.ok ⟨idv, String.mk a, none⟩
      | (a, some v) => Except.ok ⟨idv, String.mk a, some (String.mk v)⟩

/-- Modelled from the spec: the media-identification token `mid:<token>`,
module `mid.rs` missing from the provided sources.  The dispatch table never
constructs it. -/
structure Mid where
  value : String
deriving DecidableEq, Repr

/-! ## The attribute model and dispatcher (src/attributes/mod.rs) -/

/-- The `Attributes` enumeration from `src/attributes/mod.rs`. -/
inductive Attributes where
  | Ptime (v : Nat)
  | MaxPtime (v : Nat)
  | Rtpmap (v : RtpMap)
  | Fmtp (v : Fmtp)
  | Orient (v : Orient)
  | Charset (v : String)
  | SdpLang (v : String)
  | Lang (v : String)
  | Framerate (v : Nat)
  | Quality (v : Nat)
  | Kind (v : Kind)
  | Recvonly (v : Bool)
  | Sendrecv (v : Bool)
  | Sendonly (v : Bool)
  | Inactive (v : Bool)
  | Extmap (v : ExtMap)
  | Mid (v : Mid)
  | Ssrc (v : Ssrc)
  | Other (key : String) (value : Option String)
deriving DecidableEq, Repr

/-- The `match key` arm of `Attributes::try_from` in
`src/attributes/mod.rs`, applied once a `:` has been found. -/
def Attributes.dispatch (key v : String) : Except String Attributes :=
  if key = "fmtp" then (Fmtp.tryFrom v).map Attributes.Fmtp
  else if key = "rtpmap" then (RtpMap.tryFrom v).map Attributes.Rtpmap
  else if key = "extmap" then (ExtMap.tryFrom v).map Attributes.Extmap
  else if key = "lang" then Except.ok (Attributes.Lang v)
  else if key = "charset" then Except.ok (Attributes.Charset v)
  else if key = "sdplang" then Except.ok (Attributes.SdpLang v)
  else if key = "ptime" then (parseNatW 64 v).map Attributes.Ptime
  else if key = "maxptime" then (parseNatW 64 v).map Attributes.MaxPtime
  else if key = "orient" then (Orient.tryFrom v).map Attributes.Orient
  else if key = "type" then (Kind.tryFrom v).map Attributes.Kind
  else if key = "framerate" then (parseNatW 16 v).map Attributes.Framerate
  else if key = "quality" then (parseNatW 8 v).map Attributes.Quality
  else if key = "ssrc" then (Ssrc.tryFrom v).map Attributes.Ssrc
  else Except.ok (Attributes.Other key (some v))

/-- The `impl TryFrom<&str> for Attributes` from `src/attributes/mod.rs`:
`splitn(2, ':')`, an error when the iterator yields no first element at all,
`Other(key, None)` when it yields no second element, and dispatch on the
recognized-key table otherwise. -/
def Attributes.tryFrom (s : String) : Except String Attributes :=
  let parts := rustSplitn2 ':' s
  match parts.head? with
  | none => Except.error "invalid attributes!"
  | some key =>
    match parts.get? 1 with
    | none => Except.ok (Attributes.Other key none)
    | some v => Attributes.dispatch key v

/-! ## The connection line (src/connection.rs)

`std::net::IpAddr` with its parser and canonical formatter is external
library code; the connection-layer definitions are parameterised by the
address type, its parse function and its display function.  `NetKind` and
`AddrKind` are declared out of scope by the spec (their module is not among
the provided sources) and are modelled from the spec's vocabulary. -/

/-- Modelled from the spec: the network-type token, `"IN"` meaning
Internet. -/
inductive NetKind where
  | IN
deriving DecidableEq, Repr

/-- Modelled from the spec: `NetKind` formatting. -/
def NetKind.display : NetKind → String
  | .IN => "IN"

/-- Modelled from the spec: `NetKind` parsing, the exact token `"IN"`. -/
def NetKind.tryFrom (s : String) : Except String NetKind :=
  if s = "IN" then Except.ok .IN else Except.error "invalid nettype!"

/-- Modelled from the spec: the address-family token, `"IP4"` or `"IP6"`. -/
inductive AddrKind where
  | IP4
  | IP6
deriving DecidableEq, Repr

/-- Modelled from the spec: `AddrKind` formatting. -/
def AddrKind.display : AddrKind → String
  | .IP4 => "IP4"
  | .IP6 => "IP6"

/-- Modelled from the spec: `AddrKind` parsing, the exact tokens `"IP4"`
and `"IP6"`. -/
def AddrKind.tryFrom (s : String) : Except String AddrKind :=
  if s = "IP4" then Except.ok .IP4
  else if s = "IP6" then Except.ok .IP6
  else Except.error "invalid addrtype!"

/-- The `Addr` struct from `src/connection.rs`; `ttl` is `Option<u16>` and
`count` is `Option<u8>` in the source, their range invariants carried by the
parse theorems. -/
structure Addr (Ip : Type) where
  ip : Ip
  ttl : Option Nat
  count : Option Nat
deriving DecidableEq, Repr

/-- The `Connection` struct from `src/connection.rs`. -/
structure Connection (Ip : Type) where
  nettype : NetKind
  addrtype : AddrKind
  connection_address : Addr Ip
deriving DecidableEq, Repr

/-- Rust `Some(t.parse()?)` on an optional slash segment: absent segments yield
`None`, present segments must parse as a `w`-bit unsigned integer. -/
def parseOptW (w : Nat) : Option String → Except String (Option Nat)
  | none => Except.ok none
  | some t =>
    match parseNatW w t with
    | Except.error e => Except.error e
    | Except.ok v => Except.ok (some v)

/-- The `impl TryFrom<&str> for Addr` from `src/connection.rs`: split on `/`,
parse segment 0 as the address, segment 1 (when present) as the `u16` TTL,
segment 2 (when present) as the `u8` count; further segments are never
consulted. -/
def Addr.tryFrom {Ip : Type} (ipParse : String → Except String Ip) (s : String) :
    Except String (Addr Ip) :=
  match (splitAll '/' s.data).map String.mk with
  | [] => Except.error "invalid connection information!"
  | v0 :: rest =>
    match ipParse v0 with
    | Except.error e => Except.error e
    | Except.ok ip =>
      match parseOptW 16 (rest.get? 0) with
      | Except.error e => Except.error e
      | Except.ok ttl =>
        match parseOptW 8 (rest.get? 1) with
        | Except.error e => Except.error e
        | Except.ok count => Except.ok ⟨ip, ttl, count⟩

/-- The `impl fmt::Display for Addr` from `src/connection.rs`: the address, then
`/<ttl>` when the TTL is present, then `/<count>` when the count is
present. -/
def Addr.display {Ip : Type} (ipDisplay : Ip → String) (a : Addr Ip) : String :=
  ipDisplay a.ip ++
    (match a.ttl with
     | some t => "/" ++ natToStr t
     | none => "") ++
    (match a.count with
     | some c => "/" ++ natToStr c
     | none => "")

/-- The `impl TryFrom<&str> for Connection` from `src/connection.rs`: a
three-part space split into nettype, addrtype and connection address. -/
def Connection.tryFrom {Ip : Type} (ipParse : String → Except String Ip)
    (s : String) : Except String (Connection Ip) :=
  match tuple3_from_split s ' ' "invalid connection information!" with
  | Except.error e => Except.error e
  | Except.ok (n, a, c) =>
    match NetKind.tryFrom n with
    | Except.error e => Except.error e
    | Except.ok nettype =>
      match AddrKind.tryFrom a with
      | Except.error e => Except.error e
      | Except.ok addrtype =>
        match Addr.tryFrom ipParse c with
        | Except.error e => Except.error e
        | Except.ok caddr => Except.ok ⟨nettype, addrtype, caddr⟩

/-- The `impl fmt::Display for Connection` from `src/connection.rs`:
`<nettype> <addrtype> <connection-address>`. -/
def Connection.display {Ip : Type} (ipDisplay : Ip → String)
    (c : Connection Ip) : String :=
  NetKind.display c.nettype ++ " " ++ AddrKind.display c.addrtype ++ " " ++
    Addr.display ipDisplay c.connection_address

/-! ## A concrete IPv4 model

`std::net::IpAddr` is external library code; for concrete evaluations the
IPv4 half is modelled: dotted-quad display, and parsing of four dot-separated
decimal octets with no leading zeros, each below 256. -/

/-- An IPv4 address: four octets. -/
structure Ipv4 where
  a : Fin 256
  b : Fin 256
  c : Fin 256
  d : Fin 256
deriving DecidableEq, Repr

/-- Canonical dotted-quad display of an IPv4 address, as Rust's
`Ipv4Addr` formatter produces. -/
def ipv4Display (ip : Ipv4) : String :=
  natToStr ip.a.val ++ "." ++ natToStr ip.b.val ++ "." ++ natToStr ip.c.val ++
    "." ++ natToStr ip.d.val

/-- One octet of an IPv4 literal, as Rust's `Ipv4Addr` parser accepts it:
one or more digits, no leading zero except `"0"` itself, value below 256. -/
def octetParse (l : List Char) : Except String (Fin 256) :=
  if l = [] then Except.error "invalid IP address syntax"
  else if l.all Char.isDigit then
    if l.head? = some '0' ∧ l.length ≠ 1 then
      Except.error "invalid IP address syntax"
    else if h : parseDigits l < 256 then Except.ok ⟨parseDigits l, h⟩
    else Except.error "invalid IP address syntax"
  else Except.error "invalid IP address syntax"

/-- IPv4 parsing: exactly four dot-separated octets. -/
def ipv4Parse (s : String) : Except String Ipv4 :=
  match splitAll '.' s.data with
  | [x, y, z, w] =>
    match octetParse x with
    | Except.error e => Except.error e
    | Except.ok a =>
      match octetParse y with
      | Except.error e => Except.error e
      | Except.ok b =>
        match octetParse z with
        | Except.error e => Except.error e
        | Except.ok c =>
          match octetParse w with
          | Except.error e => Except.error e
          | Except.ok d => Except.ok ⟨a, b, c, d⟩
  | _ => Except.error "invalid IP address syntax"

/-! ## Helper lemmas for the connection round trips -/

theorem strMk_data (s : String) : String.mk s.data = s := rfl

theorem parseNatW_ok_lt {w : Nat} {s : String} {v : Nat}
    (h : parseNatW w s = Except.ok v) : v < 2 ^ w := by
  rcases hd : s.data with _ | ⟨c, cs⟩ <;> simp only [parseNatW, hd] at h
  · cases h
  · set D := if (c :: cs).head? = some '+' then (c :: cs).tail else c :: cs with hD
    split at h
    · cases h
    · split at h
      · split at h
        · rename_i hlt
          obtain rfl : parseDigits D = v := by injection h
          exact hlt
        · cases h
      · cases h

theorem natToStr_head_ne_zero {n : Nat} (h : 0 < n) :
    (natToStr n).data.head? ≠ some '0' :=
  natDigitsAux_head_ne_zero (n + 1) n (Nat.lt_succ_self n) h

theorem octetParse_natToStr {v : Nat} (h : v < 256) :
    octetParse (natToStr v).data = Except.ok ⟨v, h⟩ := by
  have hdig : (natToStr v).data.all Char.isDigit = true := by
    rw [List.all_eq_true]
    exact natToStr_all_digits v
  have hval : parseDigits (natToStr v).data = v := natToStr_parseDigits v
  have hlead : ¬((natToStr v).data.head? = some '0' ∧ (natToStr v).data.length ≠ 1) := by
    rcases Nat.eq_zero_or_pos v with rfl | hpos
    · intro hcon
      exact hcon.2 (by rfl)
    · intro hcon
      exact natToStr_head_ne_zero hpos hcon.1
  rw [octetParse, if_neg (natToStr_ne_nil v), if_pos hdig, if_neg hlead]
  split
  · rename_i hlt
    exact congrArg Except.ok (Fin.ext (by simpa using hval))
  · rename_i hnot
    exact absurd (by rw [hval]; exact h) hnot

theorem mem_ipv4Display {c : Char} {ip : Ipv4} (h : c ∈ (ipv4Display ip).data) :
    c.isDigit = true ∨ c = '.' := by
  simp only [ipv4Display, String.data_append, List.mem_append,
    List.mem_singleton] at h
  rcases h with (((((h | h) | h) | h) | h) | h) | h
  · exact Or.inl (natToStr_all_digits _ c h)
  · exact Or.inr h
  · exact Or.inl (natToStr_all_digits _ c h)
  · exact Or.inr h
  · exact Or.inl (natToStr_all_digits _ c h)
  · exact Or.inr h
  · exact Or.inl (natToStr_all_digits _ c h)

theorem slash_not_mem_ipv4Display (ip : Ipv4) : '/' ∉ (ipv4Display ip).data := by
  intro h
  rcases mem_ipv4Display h with h | h
  · exact Bool.noConfusion h
  · exact absurd h (by decide)

theorem ipv4Parse_display (ip : Ipv4) : ipv4Parse (ipv4Display ip) = Except.ok ip := by
  rcases ip with ⟨a, b, c, d⟩
  have hnd : ∀ n : Nat, '.' ∉ (natToStr n).data := fun n =>
    not_mem_natToStr n (by rfl)
  have hdata : (ipv4Display ⟨a, b, c, d⟩).data =
      (natToStr a.val).data ++ '.' :: ((natToStr b.val).data ++ '.' ::
        ((natToStr c.val).data ++ '.' :: (natToStr d.val).data)) := by
    simp only [ipv4Display, String.data_append]
    simp [List.append_assoc]
  have hsplit : splitAll '.' (ipv4Display ⟨a, b, c, d⟩).data =
      [(natToStr a.val).data, (natToStr b.val).data, (natToStr c.val).data,
        (natToStr d.val).data] := by
    rw [hdata, splitAll_append _ (hnd _), splitAll_append _ (hnd _),
      splitAll_append _ (hnd _), splitAll_not_mem (hnd _)]
  simp only [ipv4Parse, hsplit]
  rw [octetParse_natToStr a.isLt, octetParse_natToStr b.isLt,
    octetParse_natToStr c.isLt, octetParse_natToStr d.isLt]

theorem parseOptW_ok_inv {w : Nat} {o : Option String} {v : Option Nat}
    (h : parseOptW w o = Except.ok v) :
    (o = none ∧ v = none) ∨ ∃ s n, o = some s ∧ v = some n ∧ n < 2 ^ w := by
  cases o with
  | none =>
    left
    injection h with h'
    exact ⟨rfl, h'.symm⟩
  | some t =>
    right
    simp only [parseOptW] at h
    cases hp : parseNatW w t with
    | error e =>
      rw [hp] at h
      exact Except.noConfusion h
    | ok n =>
      simp only [hp] at h
      injection h with h'
      exact ⟨t, n, rfl, h'.symm, parseNatW_ok_lt hp⟩

theorem Addr_tryFrom_display {Ip : Type} (ipParse : String → Except String Ip)
    (ipDisplay : Ip → String)
    (hrt : ∀ ip, ipParse (ipDisplay ip) = Except.ok ip)
    (hsl : ∀ ip, '/' ∉ (ipDisplay ip).data)
    (a : Addr Ip)
    (hwf : a.count = none ∨ a.ttl ≠ none)
    (ht : ∀ t, a.ttl = some t → t < 2 ^ 16)
    (hc : ∀ c, a.count = some c → c < 2 ^ 8) :
    Addr.tryFrom ipParse (Addr.display ipDisplay a) = Except.ok a := by
  have hslash : ∀ n : Nat, '/' ∉ (natToStr n).data := fun n =>
    not_mem_natToStr n (by rfl)
  rcases a with ⟨ip, ttl, count⟩
  rcases count with _ | cv
  · rcases ttl with _ | tv
    · have hdata : (Addr.display ipDisplay ⟨ip, none, none⟩).data =
          (ipDisplay ip).data := by
        simp [Addr.display, String.data_append]
      have hsplit : splitAll '/' (Addr.display ipDisplay ⟨ip, none, none⟩).data =
          [(ipDisplay ip).data] := by
        rw [hdata]
        exact splitAll_not_mem (hsl ip)
      simp only [Addr.tryFrom, hsplit, List.map, strMk_data, hrt ip]
      rfl
    · have ht' : tv < 2 ^ 16 := ht tv rfl
      have hdata : (Addr.display ipDisplay ⟨ip, some tv, none⟩).data =
          (ipDisplay ip).data ++ '/' :: (natToStr tv).data := by
        simp [Addr.display, String.data_append]
      have hsplit : splitAll '/' (Addr.display ipDisplay ⟨ip, some tv, none⟩).data =
          [(ipDisplay ip).data, (natToStr tv).data] := by
        rw [hdata, splitAll_append _ (hsl ip), splitAll_not_mem (hslash tv)]
      simp only [Addr.tryFrom, hsplit, List.map, strMk_data, hrt ip]
      simp [parseOptW, parseNatW_natToStr 16 tv ht']
  · rcases ttl with _ | tv
    · rcases hwf with h | h
      · cases h
      · exact absurd rfl h
    · have ht' : tv < 2 ^ 16 := ht tv rfl
      have hc' : cv < 2 ^ 8 := hc cv rfl
      have hdata : (Addr.display ipDisplay ⟨ip, some tv, some cv⟩).data =
          (ipDisplay ip).data ++ '/' ::
            ((natToStr tv).data ++ '/' :: (natToStr cv).data) := by
        simp [Addr.display, String.data_append, List.append_assoc]
      have hsplit : splitAll '/'
            (Addr.display ipDisplay ⟨ip, some tv, some cv⟩).data =
          [(ipDisplay ip).data, (natToStr tv).data, (natToStr cv).data] := by
        rw [hdata, splitAll_append _ (hsl ip), splitAll_append _ (hslash tv),
          splitAll_not_mem (hslash cv)]
      simp only [Addr.tryFrom, hsplit, List.map, strMk_data, hrt ip]
      simp [parseOptW, parseNatW_natToStr 16 tv ht', parseNatW_natToStr 8 cv hc']

theorem Addr_tryFrom_ok_inv {Ip : Type} {ipParse : String → Except String Ip}
    {s : String} {a : Addr Ip} (h : Addr.tryFrom ipParse s = Except.ok a) :
    (a.count = none ∨ a.ttl ≠ none) ∧ (∀ t, a.ttl = some t → t < 2 ^ 16) ∧
      ∀ c, a.count = some c → c < 2 ^ 8 := by
  rcases hv : (splitAll '/' s.data).map String.mk with _ | ⟨v0, rest⟩
  · simp only [Addr.tryFrom, hv] at h
    exact Except.noConfusion h
  · simp only [Addr.tryFrom, hv] at h
    cases hip : ipParse v0 with
    | error e =>
      simp only [hip] at h
      exact Except.noConfusion h
    | ok ip =>
      simp only [hip] at h
      cases httl : parseOptW 16 (rest.get? 0) with
      | error e =>
        simp only [httl] at h
        exact Except.noConfusion h
      | ok ttl =>
        simp only [httl] at h
        cases hcount : parseOptW 8 (rest.get? 1) with
        | error e =>
          simp only [hcount] at h
          exact Except.noConfusion h
        | ok count =>
          simp only [hcount] at h
          obtain rfl : (⟨ip, ttl, count⟩ : Addr Ip) = a := by injection h
          refine ⟨?_, ?_, ?_⟩
          · rcases parseOptW_ok_inv hcount with ⟨_, hcn⟩ | ⟨cs, cn, hco, hcv, _⟩
            · exact Or.inl hcn
            · right
              rcases parseOptW_ok_inv httl with ⟨hto, htn⟩ | ⟨ts, tn, hto, htv, _⟩
              · cases rest with
                | nil => cases hco
                | cons x xs => cases hto
              · rw [htv]
                intro hcon
                cases hcon
          · intro t htt
            rcases parseOptW_ok_inv httl with ⟨_, htn⟩ | ⟨ts, tn, _, htv, hlt⟩
            · rw [htn] at htt
              cases htt
            · rw [htv] at htt
              injection htt with h'
              exact h' ▸ hlt
          · intro c hcc
            rcases parseOptW_ok_inv hcount with ⟨_, hcn⟩ | ⟨cs, cn, _, hcv, hlt⟩
            · rw [hcn] at hcc
              cases hcc
            · rw [hcv] at hcc
              injection hcc with h'
              exact h' ▸ hlt

theorem NetKind_tryFrom_display (nk : NetKind) :
    NetKind.tryFrom (NetKind.display nk) = Except.ok nk := by
  cases nk
  rfl

theorem AddrKind_tryFrom_display (ak : AddrKind) :
    AddrKind.tryFrom (AddrKind.display ak) = Except.ok ak := by
  cases ak <;> rfl

theorem Connection_tryFrom_display {Ip : Type}
    (ipParse : String → Except String Ip) (ipDisplay : Ip → String)
    (hrt : ∀ ip, ipParse (ipDisplay ip) = Except.ok ip)
    (hsl : ∀ ip, '/' ∉ (ipDisplay ip).data)
    (c : Connection Ip)
    (hwf : c.connection_address.count = none ∨ c.connection_address.ttl ≠ none)
    (ht : ∀ t, c.connection_address.ttl = some t → t < 2 ^ 16)
    (hc : ∀ v, c.connection_address.count = some v → v < 2 ^ 8) :
    Connection.tryFrom ipParse (Connection.display ipDisplay c) = Except.ok c := by
  rcases c with ⟨nk, ak, ad⟩
  have hnsp : ' ' ∉ (NetKind.display nk).data := by
    cases nk
    decide
  have hasp : ' ' ∉ (AddrKind.display ak).data := by cases ak <;> decide
  have hdata : (Connection.display ipDisplay ⟨nk, ak, ad⟩).data =
      (NetKind.display nk).data ++ ' ' :: ((AddrKind.display ak).data ++ ' ' ::
        (Addr.display ipDisplay ad).data) := by
    simp [Connection.display, String.data_append, List.append_assoc]
  have ht3 : tuple3_from_split (Connection.display ipDisplay ⟨nk, ak, ad⟩) ' '
        "invalid connection information!" =
      Except.ok (NetKind.display nk, AddrKind.display ak,
        Addr.display ipDisplay ad) := by
    simp only [tuple3_from_split, hdata, breakAtFirst_append _ hnsp,
      breakAtFirst_append _ hasp, strMk_data]
  simp only [Connection.tryFrom, ht3, NetKind_tryFrom_display,
    AddrKind_tryFrom_display,
    Addr_tryFrom_display ipParse ipDisplay hrt hsl ad hwf ht hc]

theorem Connection_tryFrom_ok_inv {Ip : Type}
    {ipParse : String → Except String Ip} {s : String} {c : Connection Ip}
    (h : Connection.tryFrom ipParse s = Except.ok c) :
    ∃ cs, Addr.tryFrom ipParse cs = Except.ok c.connection_address := by
  cases h3 : tuple3_from_split s ' ' "invalid connection information!" with
  | error e =>
    simp only [Connection.tryFrom, h3] at h
    exact Except.noConfusion h
  | ok triple =>
    rcases triple with ⟨n, a, cstr⟩
    simp only [Connection.tryFrom, h3] at h
    cases hn : NetKind.tryFrom n with
    | error e =>
      simp only [hn] at h
      exact Except.noConfusion h
    | ok nettype =>
      simp only [hn] at h
      cases ha : AddrKind.tryFrom a with
      | error e =>
        simp only [ha] at h
        exact Except.noConfusion h
      | ok addrtype =>
        simp only [ha] at h
        cases hcd : Addr.tryFrom ipParse cstr with
        | error e =>
          simp only [hcd] at h
          exact Except.noConfusion h
        | ok caddr =>
          simp only [hcd] at h
          refine ⟨cstr, ?_⟩
          obtain rfl : (⟨nettype, addrtype, caddr⟩ : Connection Ip) = c := by
            injection h
          exact hcd

theorem getLast?_ne_of_not_mem {l : List Char} {c : Char} (h : c ∉ l) :
    l.getLast? ≠ some c := by
  intro hc
  have hx : c ∈ l.getLast? := by
    rw [Option.mem_def]
    exact hc
  obtain ⟨hne, heq⟩ := List.mem_getLast?_eq_getLast hx
  exact h (heq ▸ List.getLast_mem hne)

theorem getLast?_natToStr_ne_slash (n : Nat) :
    (natToStr n).data.getLast? ≠ some '/' :=
  getLast?_ne_of_not_mem (not_mem_natToStr n (by rfl))

/-! ## Claim C1 -/

/-- C1 (as stated) is false: the `Addr` value with no TTL but a present
count formats as `<ip>/<count>`, which re-parses with the count in the TTL
position.  Concretely, `Addr { ip: 0.0.0.0, ttl: None, count: Some(2) }`
formats as `"0.0.0.0/2"` and re-parses as
`Addr { ip: 0.0.0.0, ttl: Some(2), count: None }`. -/
theorem claim_C1_counterexample :
    Addr.display ipv4Display ⟨⟨0, 0, 0, 0⟩, none, some 2⟩ = "0.0.0.0/2" ∧
    Addr.tryFrom ipv4Parse
        (Addr.display ipv4Display ⟨⟨0, 0, 0, 0⟩, none, some 2⟩) =
      Except.ok ⟨⟨0, 0, 0, 0⟩, some 2, none⟩ ∧
    (Except.ok ⟨⟨0, 0, 0, 0⟩, some 2, none⟩ :
        Except String (Addr Ipv4)) ≠
      Except.ok ⟨⟨0, 0, 0, 0⟩, none, some 2⟩ := by
  refine ⟨by rfl, by rfl, ?_⟩
  intro h
  injection h with h'
  cases h'

/-- C1 (amended): for every `Addr`/`Connection` value *in which a present
count implies a present TTL* (every parse-produced value has this shape;
`Addr { ttl: None, count: Some(_) }` is the sole exception forced by the
counterexample) and whose TTL and count lie in their `u16`/`u8` ranges,
formatting with `Display` and re-parsing with `TryFrom` yields a structured
value equal to the original, the external address parser inverting the
canonical address form; moreover the formatter omits each absent optional
suffix (no `/` at all when both are absent) and never emits a `/` with
nothing after it (the formatted text never ends in `/`). -/
theorem claim_C1_roundtrip {Ip : Type} (ipParse : String → Except String Ip)
    (ipDisplay : Ip → String)
    (hrt : ∀ ip, ipParse (ipDisplay ip) = Except.ok ip)
    (hsl : ∀ ip, '/' ∉ (ipDisplay ip).data) :
    (∀ a : Addr Ip, (a.count = none ∨ a.ttl ≠ none) →
      (∀ t, a.ttl = some t → t < 2 ^ 16) →
      (∀ v, a.count = some v → v < 2 ^ 8) →
      Addr.tryFrom ipParse (Addr.display ipDisplay a) = Except.ok a) ∧
    (∀ c : Connection Ip,
      (c.connection_address.count = none ∨ c.connection_address.ttl ≠ none) →
      (∀ t, c.connection_address.ttl = some t → t < 2 ^ 16) →
      (∀ v, c.connection_address.count = some v → v < 2 ^ 8) →
      Connection.tryFrom ipParse (Connection.display ipDisplay c) =
        Except.ok c) ∧
    (∀ a : Addr Ip, a.ttl = none → a.count = none →
      Addr.display ipDisplay a = ipDisplay a.ip) ∧
    (∀ a : Addr Ip, (Addr.display ipDisplay a).data.getLast? ≠ some '/') := by
  refine ⟨fun a => Addr_tryFrom_display ipParse ipDisplay hrt hsl a,
    fun c => Connection_tryFrom_display ipParse ipDisplay hrt hsl c, ?_, ?_⟩
  · intro a h1 h2
    rcases a with ⟨ip, ttl, count⟩
    cases h1
    cases h2
    simp [Addr.display]
  · intro a
    rcases a with ⟨ip, ttl, count⟩
    cases count with
    | some cv =>
      have hdata : (Addr.display ipDisplay ⟨ip, ttl, some cv⟩).data =
          ((ipDisplay ip).data ++
            (match ttl with
             | some t => "/" ++ natToStr t
             | none => "").data) ++ '/' :: (natToStr cv).data := by
        simp [Addr.display, String.data_append]
      rw [hdata, List.getLast?_append_of_ne_nil]
      · show ((['/'] ++ (natToStr cv).data)).getLast? ≠ some '/'
        rw [List.getLast?_append_of_ne_nil]
        · exact getLast?_natToStr_ne_slash cv
        · exact natToStr_ne_nil cv
      · simp
    | none =>
      cases ttl with
      | some tv =>
        have hdata : (Addr.display ipDisplay ⟨ip, some tv, none⟩).data =
            (ipDisplay ip).data ++ '/' :: (natToStr tv).data := by
          simp [Addr.display, String.data_append]
        rw [hdata, List.getLast?_append_of_ne_nil]
        · show ((['/'] ++ (natToStr tv).data)).getLast? ≠ some '/'
          rw [List.getLast?_append_of_ne_nil]
          · exact getLast?_natToStr_ne_slash tv
          · exact natToStr_ne_nil tv
        · simp
      | none =>
        have hdata : (Addr.display ipDisplay ⟨ip, none, none⟩).data =
            (ipDisplay ip).data := by
          simp [Addr.display, String.data_append]
        rw [hdata]
        exact getLast?_ne_of_not_mem (hsl ip)

/-- Witness for C1 (amended) at a concrete input: the address
`1.2.3.4/127/2` under the IPv4 model. -/
theorem claim_C1_witness :
    Addr.tryFrom ipv4Parse
        (Addr.display ipv4Display ⟨⟨1, 2, 3, 4⟩, some 127, some 2⟩) =
      Except.ok ⟨⟨1, 2, 3, 4⟩, some 127, some 2⟩ :=
  (claim_C1_roundtrip ipv4Parse ipv4Display ipv4Parse_display
    slash_not_mem_ipv4Display).1 ⟨⟨1, 2, 3, 4⟩, some 127, some 2⟩
    (Or.inr (by simp))
    (fun t h => by injection h with h'; omega)
    (fun v h => by injection h with h'; omega)

/-! ## Claim C5 -/

/-- C5: parse-then-format-then-parse is the identity on successfully parsed
`Addr` and `Connection` values, the external address parser inverting the
canonical address form. -/
theorem claim_C5_reparse {Ip : Type} (ipParse : String → Except String Ip)
    (ipDisplay : Ip → String)
    (hrt : ∀ ip, ipParse (ipDisplay ip) = Except.ok ip)
    (hsl : ∀ ip, '/' ∉ (ipDisplay ip).data) :
    (∀ (s : String) (a : Addr Ip), Addr.tryFrom ipParse s = Except.ok a →
      Addr.tryFrom ipParse (Addr.display ipDisplay a) = Except.ok a) ∧
    (∀ (s : String) (c : Connection Ip),
      Connection.tryFrom ipParse s = Except.ok c →
      Connection.tryFrom ipParse (Connection.display ipDisplay c) =
        Except.ok c) := by
  constructor
  · intro s a h
    obtain ⟨hwf, ht, hc⟩ := Addr_tryFrom_ok_inv h
    exact Addr_tryFrom_display ipParse ipDisplay hrt hsl a hwf ht hc
  · intro s c h
    obtain ⟨cs, hcs⟩ := Connection_tryFrom_ok_inv h
    obtain ⟨hwf, ht, hc⟩ := Addr_tryFrom_ok_inv hcs
    exact Connection_tryFrom_display ipParse ipDisplay hrt hsl c hwf ht hc

/-- Witness for C5 at a concrete input: `"IN IP4 0.0.0.0/127/2"` under the
IPv4 model. -/
theorem claim_C5_witness :
    Connection.tryFrom ipv4Parse
        (Connection.display ipv4Display
          ⟨NetKind.IN, AddrKind.IP4, ⟨⟨0, 0, 0, 0⟩, some 127, some 2⟩⟩) =
      Except.ok ⟨NetKind.IN, AddrKind.IP4, ⟨⟨0, 0, 0, 0⟩, some 127, some 2⟩⟩ :=
  (claim_C5_reparse ipv4Parse ipv4Display ipv4Parse_display
    slash_not_mem_ipv4Display).2 "IN IP4 0.0.0.0/127/2"
    ⟨NetKind.IN, AddrKind.IP4, ⟨⟨0, 0, 0, 0⟩, some 127, some 2⟩⟩ (by rfl)

/-! ## Claim C7 -/

/-- C7: `Addr::try_from` splits on `/`; a lone address segment yields
`None` for both options; two segments store the second as the `u16` TTL;
three segments additionally store the third as the `u8` count; segments
beyond the third are ignored, so a fourth slash and anything after it never
change the result. -/
theorem claim_C7_segments {Ip : Type} (ipParse : String → Except String Ip) :
    (∀ ip t c rest : String, '/' ∉ ip.data → '/' ∉ t.data → '/' ∉ c.data →
      Addr.tryFrom ipParse (ip ++ "/" ++ t ++ "/" ++ c ++ "/" ++ rest) =
        Addr.tryFrom ipParse (ip ++ "/" ++ t ++ "/" ++ c)) ∧
    (∀ s : String, '/' ∉ s.data →
      Addr.tryFrom ipParse s =
        (ipParse s).map (fun i => ⟨i, none, none⟩)) ∧
    (∀ ip t : String, '/' ∉ ip.data → '/' ∉ t.data →
      Addr.tryFrom ipParse (ip ++ "/" ++ t) =
        (ipParse ip).bind (fun i =>
          (parseNatW 16 t).map (fun tv => ⟨i, some tv, none⟩))) ∧
    (∀ ip t c : String, '/' ∉ ip.data → '/' ∉ t.data → '/' ∉ c.data →
      Addr.tryFrom ipParse (ip ++ "/" ++ t ++ "/" ++ c) =
        (ipParse ip).bind (fun i =>
          (parseNatW 16 t).bind (fun tv =>
            (parseNatW 8 c).map (fun cv => ⟨i, some tv, some cv⟩)))) := by
  refine ⟨?_, ?_, ?_, ?_⟩
  · intro ip t c rest hip ht hc
    have hdL : (ip ++ "/" ++ t ++ "/" ++ c ++ "/" ++ rest).data =
        ip.data ++ '/' :: (t.data ++ '/' :: (c.data ++ '/' :: rest.data)) := by
      simp [String.data_append, List.append_assoc]
    have hdR : (ip ++ "/" ++ t ++ "/" ++ c).data =
        ip.data ++ '/' :: (t.data ++ '/' :: c.data) := by
      simp [String.data_append, List.append_assoc]
    have hsL : splitAll '/' (ip ++ "/" ++ t ++ "/" ++ c ++ "/" ++ rest).data =
        ip.data :: t.data :: c.data :: splitAll '/' rest.data := by
      rw [hdL, splitAll_append _ hip, splitAll_append _ ht, splitAll_append _ hc]
    have hsR : splitAll '/' (ip ++ "/" ++ t ++ "/" ++ c).data =
        [ip.data, t.data, c.data] := by
      rw [hdR, splitAll_append _ hip, splitAll_append _ ht, splitAll_not_mem hc]
    simp only [Addr.tryFrom, hsL, hsR, List.map_cons, strMk_data]
    rfl
  · intro s hs
    have hsp : splitAll '/' s.data = [s.data] := splitAll_not_mem hs
    simp only [Addr.tryFrom, hsp, List.map_cons, List.map_nil, strMk_data]
    cases hip : ipParse s <;> simp [hip, Except.map, parseOptW]
  · intro ip t hip ht
    have hd : (ip ++ "/" ++ t).data = ip.data ++ '/' :: t.data := by
      simp [String.data_append, List.append_assoc]
    have hsp : splitAll '/' (ip ++ "/" ++ t).data = [ip.data, t.data] := by
      rw [hd, splitAll_append _ hip, splitAll_not_mem ht]
    simp only [Addr.tryFrom, hsp, List.map_cons, List.map_nil, strMk_data]
    cases hp : ipParse ip with
    | error e => simp [hp, Except.bind]
    | ok i =>
      cases hpt : parseNatW 16 t with
      | error e => simp [hp, hpt, Except.bind, Except.map, parseOptW, List.get?]
      | ok tv => simp [hp, hpt, Except.bind, Except.map, parseOptW, List.get?]
  · intro ip t c hip ht hc
    have hd : (ip ++ "/" ++ t ++ "/" ++ c).data =
        ip.data ++ '/' :: (t.data ++ '/' :: c.data) := by
      simp [String.data_append, List.append_assoc]
    have hsp : splitAll '/' (ip ++ "/" ++ t ++ "/" ++ c).data =
        [ip.data, t.data, c.data] := by
      rw [hd, splitAll_append _ hip, splitAll_append _ ht, splitAll_not_mem hc]
    simp only [Addr.tryFrom, hsp, List.map_cons, List.map_nil, strMk_data]
    cases hp : ipParse ip with
    | error e => simp [hp, Except.bind]
    | ok i =>
      cases hpt : parseNatW 16 t with
      | error e => simp [hp, hpt, Except.bind, Except.map, parseOptW, List.get?]
      | ok tv =>
        cases hpc : parseNatW 8 c with
        | error e =>
          simp [hp, hpt, hpc, Except.bind, Except.map, parseOptW, List.get?]
        | ok cv =>
          simp [hp, hpt, hpc, Except.bind, Except.map, parseOptW, List.get?]

/-- Witness for C7 at concrete inputs under the IPv4 model: a fourth
segment `"9"` after `"1.2.3.4/5/6"` does not change the parse. -/
theorem claim_C7_witness :
    Addr.tryFrom ipv4Parse "1.2.3.4/5/6/9" =
      Addr.tryFrom ipv4Parse "1.2.3.4/5/6" :=
  (claim_C7_segments ipv4Parse).1 "1.2.3.4" "5" "6" "9"
    (by decide) (by decide) (by decide)

/-! ## Claim C6 -/

/-- C6: `Kind::try_from` succeeds exactly on the five case-sensitive
literals, mapping them bijectively onto the five constructors; parsing then
formatting returns the identical literal; every other string fails. -/
theorem claim_C6_kind :
    (Kind.tryFrom "broadcast" = Except.ok Kind.Broadcast ∧
      Kind.tryFrom "meeting" = Except.ok Kind.Meeting ∧
      Kind.tryFrom "moderated" = Except.ok Kind.Moderated ∧
      Kind.tryFrom "test" = Except.ok Kind.Test ∧
      Kind.tryFrom "H332" = Except.ok Kind.H332) ∧
    (∀ s k, Kind.tryFrom s = Except.ok k → Kind.display k = s) ∧
    (∀ s : String,
      s ∉ (["broadcast", "meeting", "moderated", "test", "H332"] : List String) →
      Kind.tryFrom s = Except.error "invalid type!") := by
  refine ⟨⟨rfl, rfl, rfl, rfl, rfl⟩, ?_, ?_⟩
  · intro s k h
    unfold Kind.tryFrom at h
    split_ifs at h with h1 h2 h3 h4 h5
    · subst h1
      injection h with h'
      rw [← h']
      rfl
    · subst h2
      injection h with h'
      rw [← h']
      rfl
    · subst h3
      injection h with h'
      rw [← h']
      rfl
    · subst h4
      injection h with h'
      rw [← h']
      rfl
    · subst h5
      injection h with h'
      rw [← h']
      rfl
  · intro s hs
    unfold Kind.tryFrom
    split_ifs with h1 h2 h3 h4 h5
    · exact absurd (h1 ▸ hs) (by simp)
    · exact absurd (h2 ▸ hs) (by simp)
    · exact absurd (h3 ▸ hs) (by simp)
    · exact absurd (h4 ▸ hs) (by simp)
    · exact absurd (h5 ▸ hs) (by simp)
    · rfl

/-- Witness for C6 at a concrete input: `"H332"` parses to `H332`, which
formats back to the identical literal. -/
theorem claim_C6_witness : Kind.display Kind.H332 = "H332" :=
  claim_C6_kind.2.1 "H332" Kind.H332 (by rfl)

/-! ## Fmtp entry semantics -/

theorem splitAll_head (sep : Char) (l : List Char) :
    (splitAll sep l).head? = some (breakAtFirst sep l).1 := by
  rw [splitAll_eq_break]
  cases hb : breakAtFirst sep l with
  | mk p r => cases r <;> rfl

/-- The name field of one `;`-separated parameter entry: the text before the
first `=`. -/
def fmtpEntryName (e : List Char) : String := String.mk (breakAtFirst '=' e).1

/-- The value field of one `;`-separated parameter entry: no value when the
entry has no `=`, and otherwise the text between the first and the second
`=` (anything from a second `=` on is discarded). -/
def fmtpEntryValue (e : List Char) : Option String :=
  ((breakAtFirst '=' e).2).map (fun r => String.mk (breakAtFirst '=' r).1)

theorem fmtpStep_eq (m : List (String × Option String)) (e : List Char) :
    fmtpStep m e = insertKV m (fmtpEntryName e) (fmtpEntryValue e) := by
  unfold fmtpStep fmtpEntryName fmtpEntryValue
  rw [splitAll_eq_break]
  cases hb : breakAtFirst '=' e with
  | mk p r =>
    cases r with
    | none => rfl
    | some rr =>
      simp only [Option.map_some]
      have hh := splitAll_head '=' rr
      cases hs : splitAll '=' rr with
      | nil => exact absurd hs (splitAll_ne_nil '=' rr)
      | cons x xs =>
        rw [hs] at hh
        injection hh with hh
        simp [hh]

/-- The value carried by the last entry (in left-to-right input order) whose
name is `name`, if any: the spec-side description of last-write-wins. -/
def lastEntryValue (name : String) : List (List Char) → Option (Option String)
  | [] => none
  | e :: es =>
    match lastEntryValue name es with
    | some v => some v
    | none =>
      if fmtpEntryName e = name then some (fmtpEntryValue e) else none

/-- Key lookup in the association-list model of `HashMap`: the value bound
to the first (and, keys being unique, only) occurrence of `name`. -/
def lookupKV (name : String) : List (String × Option String) → Option (Option String)
  | [] => none
  | (k, v) :: es => if name = k then some v else lookupKV name es

theorem lookupKV_map_replace (m : List (String × Option String))
    (k name : String) (v : Option String) :
    lookupKV name (m.map (fun p => if p.1 = k then (k, v) else p)) =
      if name = k then
        (if m.any (fun p => p.1 = k) then some v else none)
      else lookupKV name m := by
  induction m with
  | nil => by_cases hn : name = k <;> simp [lookupKV, hn]
  | cons p ps ih =>
    rcases p with ⟨pk, pv⟩
    rw [List.map_cons]
    by_cases hp : pk = k
    · subst hp
      rw [show (if ((pk, pv) : String × Option String).1 = pk then (pk, v)
          else (pk, pv)) = (pk, v) from by simp]
      by_cases hn : name = pk <;>
        simp [lookupKV, hn, ih, List.any_cons]
    · rw [show (if ((pk, pv) : String × Option String).1 = k then (k, v)
          else (pk, pv)) = (pk, pv) from by simp [hp]]
      by_cases hn : name = k
      · subst hn
        simp only [List.any_cons, decide_eq_false hp, Bool.false_or]
        simp [lookupKV, Ne.symm hp, ih]
      · by_cases hnp : name = pk <;>
          simp [lookupKV, hp, hn, hnp, ih]

theorem lookupKV_append_single (m : List (String × Option String))
    (k name : String) (v : Option String) :
    lookupKV name (m ++ [(k, v)]) =
      match lookupKV name m with
      | some x => some x
      | none => if name = k then some v else none := by
  induction m with
  | nil =>
    by_cases hn : name = k <;> simp [lookupKV, hn]
  | cons p ps ih =>
    rcases p with ⟨pk, pv⟩
    by_cases hnp : name = pk <;> simp [lookupKV, hnp, ih]

theorem lookupKV_none_of_not_any (m : List (String × Option String)) (k : String)
    (h : m.any (fun p => p.1 = k) = false) : lookupKV k m = none := by
  induction m with
  | nil => rfl
  | cons p ps ih =>
    rcases p with ⟨pk, pv⟩
    simp only [List.any_cons, Bool.or_eq_false_iff, decide_eq_false_iff_not] at h
    simp [lookupKV, Ne.symm h.1, ih h.2]

theorem lookupKV_insertKV (m : List (String × Option String))
    (k name : String) (v : Option String) :
    lookupKV name (insertKV m k v) =
      if name = k then some v else lookupKV name m := by
  unfold insertKV
  split
  · rename_i hany
    rw [lookupKV_map_replace]
    by_cases hn : name = k <;> simp [hn, hany]
  · rename_i hany
    rw [lookupKV_append_single]
    rw [Bool.not_eq_true] at hany
    by_cases hn : name = k
    · subst hn
      rw [lookupKV_none_of_not_any m name hany]
    · cases lookupKV name m <;> simp [hn]

theorem insertKV_nodup (m : List (String × Option String))
    (k : String) (v : Option String) (hnd : (m.map Prod.fst).Nodup) :
    ((insertKV m k v).map Prod.fst).Nodup := by
  unfold insertKV
  split
  · have hkeys : (m.map (fun p => if p.1 = k then (k, v) else p)).map Prod.fst =
        m.map Prod.fst := by
      rw [List.map_map]
      apply List.map_congr_left
      intro p _
      by_cases hp : p.1 = k <;> simp [hp, Function.comp]
    rw [hkeys]
    exact hnd
  · rename_i hany
    rw [Bool.not_eq_true] at hany
    rw [List.map_append]
    have hk : k ∉ m.map Prod.fst := by
      intro hmem
      obtain ⟨p, hpm, hpk⟩ := List.mem_map.mp hmem
      have hT : m.any (fun p => p.1 = k) = true :=
        List.any_eq_true.mpr ⟨p, hpm, by simp [hpk]⟩
      rw [hany] at hT
      exact Bool.noConfusion hT
    simp [List.nodup_append, hnd, hk]

theorem Fmtp_tryFrom_append (pt v : String) (hpt : ' ' ∉ pt.data) :
    Fmtp.tryFrom (pt ++ " " ++ v) =
      match parseNatW 8 pt with
      | Except.error e => Except.error e
      | Except.ok k =>
        Except.ok ⟨k, (splitAll ';' v.data).foldl fmtpStep []⟩ := by
  unfold Fmtp.tryFrom tuple2_from_split
  have hd : (pt ++ " " ++ v).data = pt.data ++ ' ' :: v.data := by
    simp [String.data_append]
  rw [hd, breakAtFirst_append _ hpt]

theorem foldl_fmtpStep_lookup (entries : List (List Char))
    (m : List (String × Option String)) (hnd : (m.map Prod.fst).Nodup)
    (name : String) :
    (lookupKV name (entries.foldl fmtpStep m) =
      match lastEntryValue name entries with
      | some v => some v
      | none => lookupKV name m) ∧
    ((entries.foldl fmtpStep m).map Prod.fst).Nodup := by
  induction entries generalizing m with
  | nil => exact ⟨rfl, hnd⟩
  | cons e es ih =>
    rw [List.foldl_cons, fmtpStep_eq]
    have hnd' := insertKV_nodup m (fmtpEntryName e) (fmtpEntryValue e) hnd
    obtain ⟨ih1, ih2⟩ := ih (insertKV m (fmtpEntryName e) (fmtpEntryValue e)) hnd'
    refine ⟨?_, ih2⟩
    rw [ih1]
    cases hles : lastEntryValue name es with
    | some v => simp [lastEntryValue, hles]
    | none =>
      rw [lookupKV_insertKV]
      simp only [lastEntryValue, hles]
      by_cases hne : fmtpEntryName e = name
      · subst hne
        simp
      · rw [if_neg fun h => hne h.symm, if_neg hne]

/-! ## Claim C2 -/

/-- C2 (as stated) is false on entries whose value text itself contains
`=`: the loop body calls `split('=')` and takes the *next two fields*, so
for the entry `a=b=c` the stored value is `"b"` (the text between the first
and second `=`), not `"b=c"` (the entire text after the first `=`). -/
theorem claim_C2_counterexample :
    Fmtp.tryFrom "96 a=b=c" = Except.ok ⟨96, [("a", some "b")]⟩ ∧
    Fmtp.tryFrom "96 a=b=c" ≠ Except.ok ⟨96, [("a", some "b=c")]⟩ := by
  refine ⟨by rfl, ?_⟩
  intro h
  rw [show Fmtp.tryFrom "96 a=b=c" = Except.ok ⟨96, [("a", some "b")]⟩
    from by rfl] at h
  injection h with h'
  have hv : ([("a", some "b")] : List (String × Option String)) =
      [("a", some "b=c")] := congrArg Fmtp.values h'
  injection hv with hp
  injection hp with h1 h2
  injection h2 with h3
  have : ("b" : String).data = ("b=c" : String).data := congrArg String.data h3
  simp at this

/-- C2 (amended): after the 2-part space split, the parameter blob is split
on `;` into entries, and each entry is split on `=`: an entry with no `=`
maps the whole entry to no value, and an entry containing `=` maps the text
before the first `=` to the text between the first and the second `=`
(anything from a second `=` on is discarded). -/
theorem claim_C2_amended (pt v : String) (hpt : ' ' ∉ pt.data) (k : Nat)
    (hk : parseNatW 8 pt = Except.ok k) :
    Fmtp.tryFrom (pt ++ " " ++ v) =
      Except.ok ⟨k, (splitAll ';' v.data).foldl
        (fun m e => insertKV m (fmtpEntryName e) (fmtpEntryValue e)) []⟩ := by
  rw [Fmtp_tryFrom_append pt v hpt, hk]
  have hstep : fmtpStep =
      fun m e => insertKV m (fmtpEntryName e) (fmtpEntryValue e) :=
    funext fun m => funext fun e => fmtpStep_eq m e
  rw [hstep]

/-- Witness for C2 (amended) at a concrete input: `"96 x=1;y"`. -/
theorem claim_C2_witness :
    Fmtp.tryFrom ("96" ++ " " ++ "x=1;y") =
      Except.ok ⟨96, (splitAll ';' ("x=1;y" : String).data).foldl
        (fun m e => insertKV m (fmtpEntryName e) (fmtpEntryValue e)) []⟩ :=
  claim_C2_amended "96" "x=1;y" (by decide) 96 (by rfl)

/-! ## Claim C8 -/

/-- C8: duplicate parameter names never make `Fmtp::try_from` fail; the
resulting mapping has pairwise-distinct keys (exactly one binding per name)
and binds each name to the value of its last occurrence in left-to-right
input order. -/
theorem claim_C8_duplicates (pt v : String) (hpt : ' ' ∉ pt.data) (k : Nat)
    (hk : parseNatW 8 pt = Except.ok k) :
    ∃ m, Fmtp.tryFrom (pt ++ " " ++ v) = Except.ok ⟨k, m⟩ ∧
      (m.map Prod.fst).Nodup ∧
      ∀ name, lookupKV name m = lastEntryValue name (splitAll ';' v.data) := by
  refine ⟨(splitAll ';' v.data).foldl fmtpStep [], ?_, ?_, ?_⟩
  · rw [Fmtp_tryFrom_append pt v hpt, hk]
  · exact (foldl_fmtpStep_lookup (splitAll ';' v.data) [] (by simp) "").2
  · intro name
    have hl := (foldl_fmtpStep_lookup (splitAll ';' v.data) [] (by simp) name).1
    rw [hl]
    cases lastEntryValue name (splitAll ';' v.data) <;> rfl

/-- Witness for C8 at a concrete input: `"96 a=1;a=2;a"` maps `a` to the
no-value form of its last occurrence. -/
theorem claim_C8_witness :
    ∃ m, Fmtp.tryFrom ("96" ++ " " ++ "a=1;a=2;a") = Except.ok ⟨96, m⟩ ∧
      (m.map Prod.fst).Nodup ∧
      ∀ name, lookupKV name m =
        lastEntryValue name (splitAll ';' ("a=1;a=2;a" : String).data) :=
  claim_C8_duplicates "96" "a=1;a=2;a" (by decide) 96 (by rfl)

/-! ## Dispatcher lemmas -/

/-- The thirteen keys of the dispatch table in `Attributes::try_from`. -/
def recognizedKeys : List String :=
  ["fmtp", "rtpmap", "extmap", "lang", "charset", "sdplang", "ptime",
   "maxptime", "orient", "type", "framerate", "quality", "ssrc"]

theorem attr_tryFrom_no_colon {s : String} (h : ':' ∉ s.data) :
    Attributes.tryFrom s = Except.ok (Attributes.Other s none) := by
  unfold Attributes.tryFrom rustSplitn2
  rw [breakAtFirst_not_mem h]
  rfl

theorem attr_tryFrom_colon (k v : String) (h : ':' ∉ k.data) :
    Attributes.tryFrom (k ++ ":" ++ v) = Attributes.dispatch k v := by
  unfold Attributes.tryFrom rustSplitn2
  have hd : (k ++ ":" ++ v).data = k.data ++ ':' :: v.data := by
    simp [String.data_append]
  rw [hd, breakAtFirst_append _ h]
  rfl

theorem dispatch_unrecognized {k : String} (v : String)
    (h : k ∉ recognizedKeys) :
    Attributes.dispatch k v = Except.ok (Attributes.Other k (some v)) := by
  have h1 : ¬k = "fmtp" := fun e => h (by rw [e]; simp [recognizedKeys])
  have h2 : ¬k = "rtpmap" := fun e => h (by rw [e]; simp [recognizedKeys])
  have h3 : ¬k = "extmap" := fun e => h (by rw [e]; simp [recognizedKeys])
  have h4 : ¬k = "lang" := fun e => h (by rw [e]; simp [recognizedKeys])
  have h5 : ¬k = "charset" := fun e => h (by rw [e]; simp [recognizedKeys])
  have h6 : ¬k = "sdplang" := fun e => h (by rw [e]; simp [recognizedKeys])
  have h7 : ¬k = "ptime" := fun e => h (by rw [e]; simp [recognizedKeys])
  have h8 : ¬k = "maxptime" := fun e => h (by rw [e]; simp [recognizedKeys])
  have h9 : ¬k = "orient" := fun e => h (by rw [e]; simp [recognizedKeys])
  have h10 : ¬k = "type" := fun e => h (by rw [e]; simp [recognizedKeys])
  have h11 : ¬k = "framerate" := fun e => h (by rw [e]; simp [recognizedKeys])
  have h12 : ¬k = "quality" := fun e => h (by rw [e]; simp [recognizedKeys])
  have h13 : ¬k = "ssrc" := fun e => h (by rw [e]; simp [recognizedKeys])
  unfold Attributes.dispatch
  rw [if_neg h1, if_neg h2, if_neg h3, if_neg h4, if_neg h5, if_neg h6,
    if_neg h7, if_neg h8, if_neg h9, if_neg h10, if_neg h11, if_neg h12,
    if_neg h13]

/-! ## Claim C3 -/

/-- C3: an input with no `:` yields `Other(key, None)` with the whole input
as the key; an input `<key>:<value>` with an unrecognized key yields
`Other(key, Some(value))`, the value being exactly the text after the first
`:` (the value may itself contain further `:` characters). -/
theorem claim_C3_other :
    (∀ s : String, ':' ∉ s.data →
      Attributes.tryFrom s = Except.ok (Attributes.Other s none)) ∧
    (∀ k v : String, ':' ∉ k.data → k ∉ recognizedKeys →
      Attributes.tryFrom (k ++ ":" ++ v) =
        Except.ok (Attributes.Other k (some v))) := by
  constructor
  · intro s hs
    exact attr_tryFrom_no_colon hs
  · intro k v hk hmem
    rw [attr_tryFrom_colon k v hk]
    exact dispatch_unrecognized v hmem

/-- Witness for C3 at concrete inputs: `"candidate"` (no colon) and
`"mid:audio"` (`mid` is not in the dispatch table; its value keeps a
further colon intact). -/
theorem claim_C3_witness :
    Attributes.tryFrom "candidate" =
      Except.ok (Attributes.Other "candidate" none) ∧
    Attributes.tryFrom ("mid" ++ ":" ++ "a:b") =
      Except.ok (Attributes.Other "mid" (some "a:b")) :=
  ⟨claim_C3_other.1 "candidate" (by decide),
   claim_C3_other.2 "mid" "a:b" (by decide) (by decide)⟩

/-! ## Claim C4 -/

/-- C4: for every recognized key, the dispatcher returns exactly the
sub-parser's result mapped into the matching constructor — so a sub-parser
error propagates unchanged, never becomes `Ok`, and never falls back to
`Other`; in particular `"ptime:abc"` is a numeric-parse error. -/
theorem claim_C4_propagation :
    (∀ v, Attributes.tryFrom ("fmtp" ++ ":" ++ v) =
      (Fmtp.tryFrom v).map Attributes.Fmtp) ∧
    (∀ v, Attributes.tryFrom ("rtpmap" ++ ":" ++ v) =
      (RtpMap.tryFrom v).map Attributes.Rtpmap) ∧
    (∀ v, Attributes.tryFrom ("extmap" ++ ":" ++ v) =
      (ExtMap.tryFrom v).map Attributes.Extmap) ∧
    (∀ v, Attributes.tryFrom ("lang" ++ ":" ++ v) =
      Except.ok (Attributes.Lang v)) ∧
    (∀ v, Attributes.tryFrom ("charset" ++ ":" ++ v) =
      Except.ok (Attributes.Charset v)) ∧
    (∀ v, Attributes.tryFrom ("sdplang" ++ ":" ++ v) =
      Except.ok (Attributes.SdpLang v)) ∧
    (∀ v, Attributes.tryFrom ("ptime" ++ ":" ++ v) =
      (parseNatW 64 v).map Attributes.Ptime) ∧
    (∀ v, Attributes.tryFrom ("maxptime" ++ ":" ++ v) =
      (parseNatW 64 v).map Attributes.MaxPtime) ∧
    (∀ v, Attributes.tryFrom ("orient" ++ ":" ++ v) =
      (Orient.tryFrom v).map Attributes.Orient) ∧
    (∀ v, Attributes.tryFrom ("type" ++ ":" ++ v) =
      (Kind.tryFrom v).map Attributes.Kind) ∧
    (∀ v, Attributes.tryFrom ("framerate" ++ ":" ++ v) =
      (parseNatW 16 v).map Attributes.Framerate) ∧
    (∀ v, Attributes.tryFrom ("quality" ++ ":" ++ v) =
      (parseNatW 8 v).map Attributes.Quality) ∧
    (∀ v, Attributes.tryFrom ("ssrc" ++ ":" ++ v) =
      (Ssrc.tryFrom v).map Attributes.Ssrc) ∧
    Attributes.tryFrom ("ptime" ++ ":" ++ "abc") =
      Except.error "invalid digit found in string" := by
  refine ⟨?_, ?_, ?_, ?_, ?_, ?_, ?_, ?_, ?_, ?_, ?_, ?_, ?_, ?_⟩
  · intro v
    rw [attr_tryFrom_colon _ v (by decide)]
    rfl
  · intro v
    rw [attr_tryFrom_colon _ v (by decide)]
    rfl
  · intro v
    rw [attr_tryFrom_colon _ v (by decide)]
    rfl
  · intro v
    rw [attr_tryFrom_colon _ v (by decide)]
    rfl
  · intro v
    rw [attr_tryFrom_colon _ v (by decide)]
    rfl
  · intro v
    rw [attr_tryFrom_colon _ v (by decide)]
    rfl
  · intro v
    rw [attr_tryFrom_colon _ v (by decide)]
    rfl
  · intro v
    rw [attr_tryFrom_colon _ v (by decide)]
    rfl
  · intro v
    rw [attr_tryFrom_colon _ v (by decide)]
    rfl
  · intro v
    rw [attr_tryFrom_colon _ v (by decide)]
    rfl
  · intro v
    rw [attr_tryFrom_colon _ v (by decide)]
    rfl
  · intro v
    rw [attr_tryFrom_colon _ v (by decide)]
    rfl
  · intro v
    rw [attr_tryFrom_colon _ v (by decide)]
    rfl
  · rw [attr_tryFrom_colon _ _ (by decide)]
    rfl

/-! ## Claim C9 -/

/-- Whether a dispatcher result is one of the four boolean-flag variants
(`Recvonly`, `Sendrecv`, `Sendonly`, `Inactive`). -/
def isFlagResult : Except String Attributes → Bool
  | Except.ok (Attributes.Recvonly _) => true
  | Except.ok (Attributes.Sendrecv _) => true
  | Except.ok (Attributes.Sendonly _) => true
  | Except.ok (Attributes.Inactive _) => true
  | _ => false

theorem isFlagResult_map {α : Type} (r : Except String α) (f : α → Attributes)
    (hf : ∀ a, isFlagResult (Except.ok (f a)) = false) :
    isFlagResult (r.map f) = false := by
  cases r with
  | error e => rfl
  | ok a => exact hf a

theorem dispatch_not_flag (k v : String) :
    isFlagResult (Attributes.dispatch k v) = false := by
  by_cases hk : k ∈ recognizedKeys
  · simp only [recognizedKeys, List.mem_cons, List.mem_singleton,
      List.not_mem_nil, or_false] at hk
    rcases hk with rfl | rfl | rfl | rfl | rfl | rfl | rfl | rfl | rfl |
      rfl | rfl | rfl | rfl
    · exact isFlagResult_map _ Attributes.Fmtp (fun a => rfl)
    · exact isFlagResult_map _ Attributes.Rtpmap (fun a => rfl)
    · exact isFlagResult_map _ Attributes.Extmap (fun a => rfl)
    · rfl
    · rfl
    · rfl
    · exact isFlagResult_map _ Attributes.Ptime (fun a => rfl)
    · exact isFlagResult_map _ Attributes.MaxPtime (fun a => rfl)
    · exact isFlagResult_map _ Attributes.Orient (fun a => rfl)
    · exact isFlagResult_map _ Attributes.Kind (fun a => rfl)
    · exact isFlagResult_map _ Attributes.Framerate (fun a => rfl)
    · exact isFlagResult_map _ Attributes.Quality (fun a => rfl)
    · exact isFlagResult_map _ Attributes.Ssrc (fun a => rfl)
  · rw [dispatch_unrecognized v hk]
    rfl

/-- C9: `Attributes::try_from` never returns the `Recvonly`, `Sendrecv`,
`Sendonly` or `Inactive` variants; the four flag spellings (which carry no
`:`) each come back as `Other(key, None)`. -/
theorem claim_C9_flags :
    (∀ s : String, isFlagResult (Attributes.tryFrom s) = false) ∧
    Attributes.tryFrom "recvonly" =
      Except.ok (Attributes.Other "recvonly" none) ∧
    Attributes.tryFrom "sendrecv" =
      Except.ok (Attributes.Other "sendrecv" none) ∧
    Attributes.tryFrom "sendonly" =
      Except.ok (Attributes.Other "sendonly" none) ∧
    Attributes.tryFrom "inactive" =
      Except.ok (Attributes.Other "inactive" none) := by
  refine ⟨?_, by rfl, by rfl, by rfl, by rfl⟩
  intro s
  unfold Attributes.tryFrom rustSplitn2
  cases hb : breakAtFirst ':' s.data with
  | mk p r =>
    cases r with
    | none => rfl
    | some rr => exact dispatch_not_flag (String.mk p) (String.mk rr)

/-! ## Claim C10 -/

/-- C10: the dispatcher is total beyond the spec's stated precondition —
`splitn(2, ':')` always yields a first element, so the
`"invalid attributes!"` branch never fires; the empty string and a leading
`:` both succeed with an empty key; and every error the dispatcher can
return comes from the dispatch of a recognized key on its value text. -/
theorem claim_C10_total :
    (∀ s : String, ((rustSplitn2 ':' s).head?).isSome = true) ∧
    Attributes.tryFrom "" = Except.ok (Attributes.Other "" none) ∧
    Attributes.tryFrom ":v" = Except.ok (Attributes.Other "" (some "v")) ∧
    (∀ s e, Attributes.tryFrom s = Except.error e →
      ∃ k v, s = k ++ ":" ++ v ∧ k ∈ recognizedKeys ∧
        Attributes.dispatch k v = Except.error e) := by
  refine ⟨?_, by rfl, by rfl, ?_⟩
  · intro s
    unfold rustSplitn2
    cases hb : breakAtFirst ':' s.data with
    | mk p r => cases r <;> rfl
  · intro s e h
    unfold Attributes.tryFrom rustSplitn2 at h
    cases hb : breakAtFirst ':' s.data with
    | mk p r =>
      rw [hb] at h
      cases r with
      | none => exact Except.noConfusion h
      | some rr =>
        have h' : Attributes.dispatch (String.mk p) (String.mk rr) =
            Except.error e := h
        refine ⟨String.mk p, String.mk rr, ?_, ?_, h'⟩
        · apply String.ext
          have hd := (breakAtFirst_eq_some hb).1
          rw [hd]
          simp [String.data_append]
        · by_cases hm : String.mk p ∈ recognizedKeys
          · exact hm
          · exfalso
            have hu := dispatch_unrecognized (String.mk rr) hm
            rw [h'] at hu
            exact Except.noConfusion hu

/-- Witness for C10 at a concrete erroring input, `"ptime:abc"`: the error
comes from the recognized key `ptime`. -/
theorem claim_C10_witness :
    ∃ k v, ("ptime" ++ ":" ++ "abc" : String) = k ++ ":" ++ v ∧
      k ∈ recognizedKeys ∧
      Attributes.dispatch k v =
        Except.error "invalid digit found in string" :=
  claim_C10_total.2.2.2 ("ptime" ++ ":" ++ "abc")
    "invalid digit found in string" (by rfl)
